import Mathlib

/-!
Verification of the oxidizehttp request-head parser (src/lexer.rs,
src/parser.rs, src/http_entity.rs) against its natural-language
specification.

Bytes are modelled as `Nat` (the source works on `u8`; every classification
below only tests values < 256, so `Nat` is a faithful superset).  The Rust
`Peekable<Iter<u8>>` cursor is modelled as the remaining byte list; one call
to `Lexer::lex` becomes the pure function `lex : List Nat → TokenKind × List
Nat` returning the token and the remaining bytes.  Rust panics (`todo!()` in
`Parser::path`, `unreachable!()` in `ToString for TokenKind`) are modelled
by a distinguished `diverge` outcome; `Result::Err(ParseErr(msg))` becomes
an `err msg` outcome carrying the parser state left behind.  The recursive
grammar rules (`path`, the two loops of `headers`) take an explicit fuel
argument so that every definition is executable; a `stuck` outcome marks
fuel exhaustion only and corresponds to nothing in the source.  Top-level
wrappers supply fuel `psize s + 1`, which is proved sufficient where a
theorem needs it.
-/

/-- Embeds `TCharKind` from src/lexer.rs. -/
inductive TCharKind where
  | exclamationMark
  | hash
  | dollarSign
  | percent
  | and
  | sQuote
  | star
  | plus
  | min
  | dot
  | circumflex
  | underscore
  | backquote
  | pipe
  | tilde
  | digit (d : Nat)
  | alpha (a : Char)
deriving DecidableEq, Repr

/-- Embeds `DelimiterKind` from src/lexer.rs. -/
inductive DelimiterKind where
  | lParen
  | rParen
  | comma
  | slash
  | colon
  | semicolon
  | gt
  | equal
  | lt
  | questionMark
  | atSign
  | lBracket
  | backslash
  | rBracket
  | lBrace
  | rBrace
deriving DecidableEq, Repr

/-- Embeds `TokenKind` from src/lexer.rs. -/
inductive TokenKind where
  | char (c : TCharKind)
  | token (s : String)
  | delimiter (d : DelimiterKind)
  | dQuote
  | cr
  | lf
  | crlf
  | space
  | bad
  | eof
deriving DecidableEq, Repr

/-- Embeds `u8::is_ascii_alphabetic`. -/
def is_ascii_alphabetic (b : Nat) : Bool :=
  decide ((65 ≤ b ∧ b ≤ 90) ∨ (97 ≤ b ∧ b ≤ 122))

/-- Embeds `u8::is_ascii_digit`. -/
def is_ascii_digit (b : Nat) : Bool :=
  decide (48 ≤ b ∧ b ≤ 57)

/-- Embeds `u8::is_ascii_alphanumeric`. -/
def is_ascii_alphanumeric (b : Nat) : Bool :=
  is_ascii_alphabetic b || is_ascii_digit b

/-- Embeds `Tokens::is_tchar` (src/lexer.rs lines 80-98): the fixed
mark-character set. -/
def is_tchar (b : Nat) : Bool :=
  decide (b = 33 ∨ b = 35 ∨ b = 36 ∨ b = 37 ∨ b = 38 ∨ b = 39 ∨ b = 42 ∨
    b = 43 ∨ b = 45 ∨ b = 46 ∨ b = 94 ∨ b = 95 ∨ b = 96 ∨ b = 124 ∨ b = 126)

/-- Embeds `Tokens::is_tkn` (src/lexer.rs lines 76-78): alphabetic or a mark
character.  Note that decimal digits satisfy neither disjunct. -/
def is_tkn (b : Nat) : Bool :=
  is_ascii_alphabetic b || is_tchar b

/-- Turns a byte list into the string of the corresponding characters. -/
def strOfBytes (l : List Nat) : String :=
  String.mk (l.map Char.ofNat)

/-- Embeds `Lexer::accu_token` (src/lexer.rs lines 171-183): the while-loop
consumes bytes while `is_tkn` holds, i.e. it takes the longest `is_tkn`
prefix and leaves the rest of the buffer. -/
def accu_token (l : List Nat) : TokenKind × List Nat :=
  (.token (strOfBytes (l.takeWhile is_tkn)), l.dropWhile is_tkn)

/-- Embeds `Lexer::lex` (src/lexer.rs lines 107-157).  The match arms are
translated in source order.  In the CR arm, `self.just(CR)` calls
`self.eat()`, so a lone CR followed by a non-LF byte consumes that byte as
well.  In the alphanumeric arm the source calls `self.peekable.peek()` a
second time without consuming anything, so the peek observes the same byte
`b` again (modelled by `(b :: rest).head?`); consequently the
single-letter `Char(Alpha _)` branch is unreachable. -/
def lex : List Nat → TokenKind × List Nat
  | [] => (.eof, [])
  | b :: rest =>
    if b = 0 then (.eof, rest)
    else if b = 32 then (.space, rest)
    else if b = 33 then (.char .exclamationMark, rest)
    else if b = 35 then (.char .hash, rest)
    else if b = 36 then (.char .dollarSign, rest)
    else if b = 37 then (.char .percent, rest)
    else if b = 38 then (.char .and, rest)
    else if b = 39 then (.char .sQuote, rest)
    else if b = 42 then (.char .star, rest)
    else if b = 43 then (.char .plus, rest)
    else if b = 45 then (.char .min, rest)
    else if b = 46 then (.char .dot, rest)
    else if b = 94 then (.char .circumflex, rest)
    else if b = 95 then (.char .underscore, rest)
    else if b = 96 then (.char .backquote, rest)
    else if b = 124 then (.char .pipe, rest)
    else if b = 126 then (.char .tilde, rest)
    else if b = 34 then (.dQuote, rest)
    else if b = 58 then (.delimiter .colon, rest)
    else if b = 47 then (.delimiter .slash, rest)
    else if b = 13 then
      match rest with
      | b2 :: r2 => if b2 = 10 then (.crlf, r2) else (.cr, r2)
      | [] => (.cr, [])
    else if b = 10 then (.lf, rest)
    else if is_ascii_digit b then (.char (.digit (b - 48)), rest)
    else if is_ascii_alphanumeric b then
      match (b :: rest).head? with
      | some v =>
        if is_ascii_alphanumeric v then accu_token (b :: rest)
        else (.char (.alpha (Char.ofNat b)), rest)
      | none => (.char (.alpha (Char.ofNat b)), rest)
    else (.bad, rest)

/-- Embeds `impl ToString for TCharKind` (src/lexer.rs lines 248-271).
Note that the source renders `Backquote` as a backslash. -/
def tchar_to_string : TCharKind → String
  | .exclamationMark => "!"
  | .hash => "#"
  | .dollarSign => "$"
  | .percent => "%"
  | .and => "&"
  | .sQuote => "\x27"
  | .star => "*"
  | .plus => "+"
  | .min => "-"
  | .dot => "."
  | .circumflex => "^"
  | .underscore => "_"
  | .backquote => "\x5c"
  | .pipe => "|"
  | .tilde => "~"
  | .digit d => toString d
  | .alpha a => String.mk [a]

/-- Embeds `impl ToString for DelimiterKind` (src/lexer.rs lines 208-230). -/
def delimiter_to_string : DelimiterKind → String
  | .lParen => "("
  | .rParen => ")"
  | .comma => ","
  | .slash => "/"
  | .colon => ":"
  | .semicolon => ";"
  | .gt => ">"
  | .equal => "="
  | .lt => "<"
  | .questionMark => "?"
  | .atSign => "@"
  | .lBracket => "["
  | .backslash => "\x5c"
  | .rBracket => "]"
  | .lBrace => "\x7b"
  | .rBrace => "\x7d"

/-- Embeds `impl ToString for TokenKind` (src/lexer.rs lines 232-246).  The
`Bad | Eof` arm is `unreachable!()` in the source, i.e. a panic; it is
modelled as `none`. -/
def token_to_string : TokenKind → Option String
  | .token tk => some tk
  | .char tck => some (tchar_to_string tck)
  | .delimiter dk => some (delimiter_to_string dk)
  | .dQuote => some "\x22"
  | .cr => some "\r"
  | .lf => some "\n"
  | .crlf => some "\r\n"
  | .space => some " "
  | .bad => none
  | .eof => none

/-- Embeds the Rust `Debug` derive output for `TCharKind`, as used by
`ParseErr` messages built with `format!`. -/
def repr_tchar : TCharKind → String
  | .exclamationMark => "ExclamationMark"
  | .hash => "Hash"
  | .dollarSign => "DollarSign"
  | .percent => "Percent"
  | .and => "And"
  | .sQuote => "SQuote"
  | .star => "Star"
  | .plus => "Plus"
  | .min => "Min"
  | .dot => "Dot"
  | .circumflex => "Circumflex"
  | .underscore => "Underscore"
  | .backquote => "Backquote"
  | .pipe => "Pipe"
  | .tilde => "Tilde"
  | .digit d => "Digit(" ++ toString d ++ ")"
  | .alpha a => "Alpha(\x27" ++ String.mk [a] ++ "\x27)"

/-- Embeds the Rust `Debug` derive output for `DelimiterKind`. -/
def repr_delimiter : DelimiterKind → String
  | .lParen => "LParen"
  | .rParen => "RParen"
  | .comma => "Comma"
  | .slash => "Slash"
  | .colon => "Colon"
  | .semicolon => "Semicolon"
  | .gt => "GT"
  | .equal => "Equal"
  | .lt => "LT"
  | .questionMark => "QuestionMark"
  | .atSign => "At"
  | .lBracket => "LBracket"
  | .backslash => "Backslash"
  | .rBracket => "RBracket"
  | .lBrace => "LBrace"
  | .rBrace => "RBrace"

/-- Embeds the Rust `Debug` derive output for `TokenKind`. -/
def repr_token : TokenKind → String
  | .char c => "Char(" ++ repr_tchar c ++ ")"
  | .token s => "Token(\x22" ++ s ++ "\x22)"
  | .delimiter d => "Delimiter(" ++ repr_delimiter d ++ ")"
  | .dQuote => "DQuote"
  | .cr => "CR"
  | .lf => "LF"
  | .crlf => "CRLF"
  | .space => "Space"
  | .bad => "Bad"
  | .eof => "Eof"

/-- Embeds `HttpMethod` from src/http_entity.rs. -/
inductive HttpMethod where
  | GET
  | POST
  | BAD
deriving DecidableEq, Repr

/-- Embeds `HttpVsn` from src/http_entity.rs. -/
inductive HttpVsn where
  | HTTP1_1
deriving DecidableEq, Repr

/-- Embeds `HttpEntity` from src/http_entity.rs; the `HashMap` of headers
is modelled as an association list where `insert` removes any earlier
binding of the same key (last write wins). -/
structure HttpEntity where
  http_version : HttpVsn
  method : HttpMethod
  path : String
  headers : List (String × String)
deriving DecidableEq, Repr

/-- Models `HashMap::insert`: overwrite any previous value for the key. -/
def insertHeader (k v : String) (hs : List (String × String)) :
    List (String × String) :=
  hs.filter (fun kv => kv.1 != k) ++ [(k, v)]

/-- Embeds `RequestLine` from src/parser.rs (a tuple struct of method,
path, version). -/
structure RequestLine where
  method : HttpMethod
  path : String
  vsn : HttpVsn
deriving DecidableEq, Repr

/-- Embeds the `Parser` state (src/parser.rs lines 11-15): the two-token
lookahead window plus the lexer cursor (remaining bytes). -/
structure ParserState where
  curr : TokenKind
  next : TokenKind
  bytes : List Nat
deriving DecidableEq, Repr

/-- Embeds `Parser::new` (src/parser.rs lines 18-25): prime the window by
lexing twice. -/
def parser_new (bs : List Nat) : ParserState :=
  ⟨(lex bs).1, (lex (lex bs).2).1, (lex (lex bs).2).2⟩

/-- Embeds `Parser::walk` (src/parser.rs lines 32-39): lex one more token,
rotate the window and return the token that was `curr`. -/
def walk (s : ParserState) : TokenKind × ParserState :=
  (s.curr, ⟨s.next, (lex s.bytes).1, (lex s.bytes).2⟩)

/-- Result of a non-panicking parser operation (`Result<_, ParseErr>` in
the source); the error message carries the state the `&mut self` parser is
left in. -/
inductive PRes (α : Type) where
  | ok (a : α) (s : ParserState)
  | err (msg : String) (s : ParserState)
deriving DecidableEq, Repr

/-- Result of a parser operation that may also panic (`diverge`); `stuck`
is a fuel-exhaustion artifact of the embedding only and corresponds to
nothing in the source. -/
inductive POut (α : Type) where
  | ok (a : α) (s : ParserState)
  | err (msg : String) (s : ParserState)
  | diverge
  | stuck
deriving DecidableEq, Repr

/-- Extracts the parsed value of a `POut`, if any. -/
def POut.getOk? {α : Type} : POut α → Option α
  | .ok a _ => some a
  | _ => none

/-- Extracts the error message of a `POut`, if any. -/
def POut.getErr? {α : Type} : POut α → Option String
  | .err msg _ => some msg
  | _ => none

/-- Embeds `Parser::expect_token` (src/parser.rs lines 42-51). -/
def expect_token (s : ParserState) : PRes String :=
  match s.curr with
  | .token str => .ok str (walk s).2
  | _ => .err "Was expected a Token" s

/-- Embeds `Parser::expect` (src/parser.rs lines 54-59); on success the
walked token (the old `curr`, equal to `tk`) is returned. -/
def expect (tk : TokenKind) (s : ParserState) : PRes TokenKind :=
  if s.curr = tk then .ok (walk s).1 (walk s).2
  else .err ("Expected " ++ repr_token tk ++ ", found " ++ repr_token s.curr) s

/-- Embeds `Parser::curr_is` (src/parser.rs lines 62-67). -/
def curr_is (tk : TokenKind) (s : ParserState) : Bool :=
  s.curr == tk

/-- Embeds `Parser::opt_space` (src/parser.rs lines 70-74). -/
def opt_space (s : ParserState) : ParserState :=
  if curr_is .space s then (walk s).2 else s

/-- Embeds `Parser::method` (src/parser.rs lines 79-88): an `expect_token`
failure is recovered into the `BAD` sentinel and never propagates. -/
def method (s : ParserState) : HttpMethod × ParserState :=
  match expect_token s with
  | .ok str s1 =>
    (if str = "GET" then .GET else if str = "POST" then .POST else .BAD, s1)
  | .err _ s1 => (.BAD, s1)

/-- Token-weight for the fuel measure: an `eof` in the window contributes
nothing. -/
def tw : TokenKind → Nat
  | .eof => 0
  | _ => 1

/-- Fuel measure for the parser loops: remaining bytes plus the non-`eof`
tokens still in the lookahead window. -/
def psize (s : ParserState) : Nat :=
  s.bytes.length + tw s.curr + tw s.next

/-- Embeds `Parser::path` (src/parser.rs lines 91-101), with explicit
fuel.  Each round matches on `self.walk()` (the old `curr`); `DQuote` hits
`todo!()` (a panic, modelled as `diverge`); space, CRLF and end-of-input
finish the path; a bad token is an error; anything else is appended via
`to_string` and the rule recurses. -/
def path : Nat → ParserState → String → POut String
  | 0, _, _ => .stuck
  | fuel + 1, s, acc =>
    match s.curr with
    | .dQuote => .diverge
    | .space => .ok acc (walk s).2
    | .crlf => .ok acc (walk s).2
    | .eof => .ok acc (walk s).2
    | .bad => .err "Bad token found" (walk s).2
    | tk =>
      match token_to_string tk with
      | some str => path fuel (walk s).2 (acc ++ str)
      | none => .diverge

/-- `Parser::path` with the canonical (sufficient) fuel. -/
def pathRun (s : ParserState) (acc : String) : POut String :=
  path (psize s + 1) s acc

/-- Embeds `Parser::http_1_1` (src/parser.rs lines 104-121): the literal
run "HTTP", a slash, digit 1, a dot and digit 1, in that order.  (The
`println!` on line 109 has no bearing on the result.) -/
def http_1_1 (s : ParserState) : PRes HttpVsn :=
  match expect_token s with
  | .err msg s1 => .err msg s1
  | .ok http s1 =>
    if ¬(http = "HTTP") then .err "Expected \x27HTTP\x27 token" s1
    else
      match expect (.delimiter .slash) s1 with
      | .err msg s2 => .err msg s2
      | .ok _ s2 =>
        match expect (.char (.digit 1)) s2 with
        | .err msg s3 => .err msg s3
        | .ok _ s3 =>
          match expect (.char .dot) s3 with
          | .err msg s4 => .err msg s4
          | .ok _ s4 =>
            match expect (.char (.digit 1)) s4 with
            | .err msg s5 => .err msg s5
            | .ok _ s5 => .ok .HTTP1_1 s5

/-- Embeds `Parser::request_line` (src/parser.rs lines 130-138): method
(recovered, never fails), a mandatory space, the path, the version, a
mandatory CRLF. -/
def request_line (s : ParserState) : POut RequestLine :=
  match method s with
  | (m, s1) =>
    match expect .space s1 with
    | .err msg s2 => .err msg s2
    | .ok _ s2 =>
      match pathRun s2 "" with
      | .stuck => .stuck
      | .diverge => .diverge
      | .err msg s3 => .err msg s3
      | .ok p s3 =>
        match http_1_1 s3 with
        | .err msg s4 => .err msg s4
        | .ok v s4 =>
          match expect .crlf s4 with
          | .err msg s5 => .err msg s5
          | .ok _ s5 => .ok ⟨m, p, v⟩ s5

/-- Embeds the header-value accumulation loop of `Parser::headers`
(src/parser.rs lines 152-155), with explicit fuel: while `curr` is not
CRLF, walk and append the token rendering; `to_string` on `Bad` or `Eof`
is `unreachable!()`, i.e. a panic (`diverge`). -/
def header_value : Nat → ParserState → String → POut String
  | 0, _, _ => .stuck
  | fuel + 1, s, acc =>
    if s.curr = .crlf then .ok acc s
    else
      match token_to_string s.curr with
      | some str => header_value fuel (walk s).2 (acc ++ str)
      | none => .diverge

/-- The header-value loop with the canonical (sufficient) fuel. -/
def headerValRun (s : ParserState) (acc : String) : POut String :=
  header_value (psize s + 1) s acc

/-- Embeds the outer header loop of `Parser::headers` (src/parser.rs lines
145-160), with explicit fuel: while `curr` is not CRLF, read a header name
(`expect_token`), a colon, an optional space, the value, then the line's
CRLF, and insert the pair. -/
def header_loop : Nat → ParserState → List (String × String) →
    POut (List (String × String))
  | 0, _, _ => .stuck
  | fuel + 1, s, hs =>
    if curr_is .crlf s then .ok hs s
    else
      match expect_token s with
      | .err msg s1 => .err msg s1
      | .ok name s1 =>
        match expect (.delimiter .colon) s1 with
        | .err msg s2 => .err msg s2
        | .ok _ s2 =>
          match headerValRun (opt_space s2) "" with
          | .stuck => .stuck
          | .diverge => .diverge
          | .err msg s3 => .err msg s3
          | .ok v s3 =>
            match expect .crlf s3 with
            | .err msg s4 => .err msg s4
            | .ok _ s4 => header_loop fuel s4 (insertHeader name v hs)

/-- Embeds `Parser::headers` (src/parser.rs lines 140-169): a request
line, then the header loop, then the entity is assembled and returned
(note: the loop guard `curr_is` does not consume the blank-line CRLF). -/
def headers (s : ParserState) : POut HttpEntity :=
  match request_line s with
  | .stuck => .stuck
  | .diverge => .diverge
  | .err msg s1 => .err msg s1
  | .ok rl s1 =>
    match header_loop (psize s1 + 1) s1 [] with
    | .stuck => .stuck
    | .diverge => .diverge
    | .err msg s2 => .err msg s2
    | .ok hs s2 => .ok ⟨rl.vsn, rl.method, rl.path, hs⟩ s2

/-- Byte list of a string literal, for writing concrete inputs. -/
def strBytes (s : String) : List Nat :=
  s.data.map Char.toNat

/-- Bytes that the path rule both accepts and renders back literally:
letters, digits, the mark characters other than the backquote (whose
`to_string` is a backslash in the source), the slash and the colon. -/
def path_safe (b : Nat) : Bool :=
  is_ascii_alphabetic b || is_ascii_digit b || (is_tchar b && b != 96) ||
    b == 47 || b == 58

theorem walk_parser_new (bs : List Nat) :
    walk (parser_new bs) = ((lex bs).1, parser_new (lex bs).2) := rfl

theorem lex_alpha (b : Nat) (hb : is_ascii_alphabetic b = true)
    (rest : List Nat) : lex (b :: rest) = accu_token (b :: rest) := by
  have hr : (65 ≤ b ∧ b ≤ 90) ∨ (97 ≤ b ∧ b ≤ 122) := by
    simpa [is_ascii_alphabetic] using hb
  rcases hr with ⟨h1, h2⟩ | ⟨h1, h2⟩ <;> interval_cases b <;> rfl

theorem lex_digit_eq (b : Nat) (hb : is_ascii_digit b = true)
    (rest : List Nat) : lex (b :: rest) = (.char (.digit (b - 48)), rest) := by
  have hr : 48 ≤ b ∧ b ≤ 57 := by simpa [is_ascii_digit] using hb
  obtain ⟨h1, h2⟩ := hr
  interval_cases b <;> rfl

theorem lex_mark (b : Nat) (hb : is_tchar b = true) (hnb : b ≠ 96)
    (rest : List Nat) : ∃ c, lex (b :: rest) = (.char c, rest) ∧
      tchar_to_string c = String.mk [Char.ofNat b] := by
  have hr : b = 33 ∨ b = 35 ∨ b = 36 ∨ b = 37 ∨ b = 38 ∨ b = 39 ∨ b = 42 ∨
      b = 43 ∨ b = 45 ∨ b = 46 ∨ b = 94 ∨ b = 95 ∨ b = 96 ∨ b = 124 ∨
      b = 126 := by simpa [is_tchar] using hb
  rcases hr with h | h | h | h | h | h | h | h | h | h | h | h | h | h | h <;>
    subst h <;> first
  | exact ⟨_, rfl, rfl⟩
  | exact absurd rfl hnb

theorem strmk_append (a b : List Char) :
    String.mk a ++ String.mk b = String.mk (a ++ b) := rfl

theorem strOfBytes_append (l1 l2 : List Nat) :
    strOfBytes (l1 ++ l2) = strOfBytes l1 ++ strOfBytes l2 := by
  simp [strOfBytes, ← strmk_append]

theorem digit_render (b : Nat) (hb : is_ascii_digit b = true) :
    tchar_to_string (.digit (b - 48)) = String.mk [Char.ofNat b] := by
  have hr : 48 ≤ b ∧ b ≤ 57 := by simpa [is_ascii_digit] using hb
  obtain ⟨h1, h2⟩ := hr
  interval_cases b <;> rfl

theorem takeWhile_stop (q : Nat → Bool) (a : Nat) (l l2 : List Nat)
    (hq : q a = false) :
    ((l ++ a :: l2).takeWhile q = l.takeWhile q) ∧
      ((l ++ a :: l2).dropWhile q = l.dropWhile q ++ a :: l2) := by
  induction l with
  | nil => simp [List.takeWhile_cons, List.dropWhile_cons, hq]
  | cons x xs ih =>
    by_cases hx : q x = true
    · simp [List.takeWhile_cons, List.dropWhile_cons, hx, ih]
    · have hx2 : q x = false := by simpa using hx
      simp [List.takeWhile_cons, List.dropWhile_cons, hx2]

theorem acc_len (b : Nat) (bs : List Nat) (htk : is_tkn b = true) :
    ((b :: bs).dropWhile is_tkn).length < (b :: bs).length := by
  simp only [List.dropWhile_cons_of_pos htk, List.length_cons]
  exact Nat.lt_succ_of_le (List.dropWhile_sublist is_tkn).length_le

theorem lex_len_alpha (b : Nat) (bs : List Nat)
    (h : is_ascii_alphabetic b = true) :
    ((lex (b :: bs)).2).length < (b :: bs).length := by
  rw [lex_alpha b h]
  exact acc_len b bs (by simp [is_tkn, h])

theorem lex_length (b : Nat) (bs : List Nat) :
    ((lex (b :: bs)).2).length < (b :: bs).length := by
  rcases Nat.lt_or_ge b 127 with hb | hb
  · interval_cases b <;>
      first
      | exact Nat.lt_succ_self bs.length
      | exact lex_len_alpha _ bs (by decide)
      | (rcases bs with _ | ⟨b2, r2⟩
         · decide
         · rcases eq_or_ne b2 10 with h10 | h10 <;> simp [lex, h10] <;> omega)
  · have hd : ¬ is_ascii_digit b = true := by simp [is_ascii_digit]; omega
    have ha : ¬ is_ascii_alphanumeric b = true := by
      simp [is_ascii_alphanumeric, is_ascii_alphabetic, is_ascii_digit]
      omega
    simp only [lex]
    iterate 22 rw [if_neg (by omega)]
    rw [if_neg hd, if_neg ha]
    exact Nat.lt_succ_self bs.length

theorem walk_psize_lt (s : ParserState) (h : s.curr ≠ .eof) :
    psize (walk s).2 < psize s := by
  rcases s with ⟨c, n, bytes⟩
  have htc : tw c = 1 := by cases c <;> simp_all [tw]
  cases bytes with
  | nil =>
    have hlex : lex ([] : List Nat) = (.eof, []) := rfl
    simp only [walk, psize, hlex, tw, List.length_nil, htc]
    omega
  | cons b bs =>
    have h1 := lex_length b bs
    have h2 : tw (lex (b :: bs)).1 ≤ 1 := by
      cases (lex (b :: bs)).1 <;> simp [tw]
    simp only [walk, psize, htc]
    omega

theorem str_append_nil (a : String) : a ++ strOfBytes [] = a := by
  rcases a with ⟨l⟩
  show String.mk l ++ String.mk [] = String.mk l
  rw [strmk_append]
  simp

theorem strOfBytes_cons (b : Nat) (l : List Nat) :
    strOfBytes (b :: l) = String.mk [Char.ofNat b] ++ strOfBytes l := by
  rw [strmk_append]
  rfl

theorem path_safe_cases (b : Nat) (h : path_safe b = true) :
    is_ascii_alphabetic b = true ∨ is_ascii_digit b = true ∨
      (is_tchar b = true ∧ b ≠ 96) ∨ b = 47 ∨ b = 58 := by
  simp only [path_safe, Bool.or_eq_true, Bool.and_eq_true, bne_iff_ne,
    beq_iff_eq] at h
  tauto

theorem path_not_stuck (fuel : Nat) :
    ∀ (s : ParserState) (acc : String), psize s < fuel →
      path fuel s acc ≠ POut.stuck := by
  induction fuel with
  | zero => intro s acc h; omega
  | succ f ih =>
    intro s acc h
    have hlt : s.curr ≠ .eof → psize (walk s).2 < f := fun hne => by
      have := walk_psize_lt s hne
      omega
    cases hc : s.curr <;>
      simp only [path, hc, token_to_string] <;>
      first
      | exact ih _ _ (hlt (by simp [hc]))
      | simp

theorem path_mono (f1 : Nat) :
    ∀ (s : ParserState) (acc : String) (f2 : Nat), f1 ≤ f2 →
      path f1 s acc ≠ POut.stuck → path f2 s acc = path f1 s acc := by
  induction f1 with
  | zero => intro s acc f2 _ h; simp [path] at h
  | succ f ih =>
    intro s acc f2 hle h
    obtain ⟨g, rfl⟩ : ∃ g, f2 = g + 1 := ⟨f2 - 1, by omega⟩
    cases hc : s.curr <;>
      simp only [path, hc, token_to_string] at h ⊢ <;>
      first
      | rfl
      | exact ih _ _ g (by omega) h

theorem path_fuel_eq {f1 f2 : Nat} (s : ParserState) (acc : String)
    (h1 : path f1 s acc ≠ POut.stuck) (h2 : path f2 s acc ≠ POut.stuck) :
    path f1 s acc = path f2 s acc := by
  rcases Nat.le_total f1 f2 with h | h
  · exact (path_mono f1 s acc f2 h h1).symm
  · exact path_mono f2 s acc f1 h h2

theorem path_sim_nil (rest : List Nat) (acc : String) (fuel : Nat)
    (hfuel : 2 ≤ fuel) :
    path fuel (parser_new (32 :: rest)) acc =
      POut.ok (acc ++ strOfBytes []) (parser_new rest) := by
  obtain ⟨g, rfl⟩ : ∃ g, fuel = g + 1 := ⟨fuel - 1, by omega⟩
  have hlex : lex (32 :: rest) = (.space, rest) := rfl
  have hcur : (parser_new (32 :: rest)).curr = .space := by
    simp [parser_new, hlex]
  simp only [path, hcur]
  simp [walk_parser_new, hlex, str_append_nil]

theorem path_sim (n : Nat) : ∀ (p : List Nat), p.length ≤ n →
    (∀ b ∈ p, path_safe b = true) → ∀ (rest : List Nat) (acc : String)
    (fuel : Nat), p.length + 2 ≤ fuel →
    path fuel (parser_new (p ++ 32 :: rest)) acc =
      POut.ok (acc ++ strOfBytes p) (parser_new rest) := by
  induction n with
  | zero =>
    intro p hlen hsafe rest acc fuel hfuel
    have hp : p = [] := List.eq_nil_of_length_eq_zero (by omega)
    subst hp
    exact path_sim_nil rest acc fuel (by omega)
  | succ m ih =>
    intro p hlen hsafe rest acc fuel hfuel
    cases p with
    | nil => exact path_sim_nil rest acc fuel (by omega)
    | cons b p2 =>
      obtain ⟨g, rfl⟩ : ∃ g, fuel = g + 1 := ⟨fuel - 1, by omega⟩
      simp only [List.length_cons] at hfuel hlen
      simp only [List.cons_append]
      have hsb : path_safe b = true := hsafe b (by simp)
      have hsp2 : ∀ x ∈ p2, path_safe x = true := fun x hx =>
        hsafe x (by simp [hx])
      have hlen2 : p2.length ≤ m := by omega
      rcases path_safe_cases b hsb with hb | hb | ⟨hb, hb96⟩ | hb | hb
      · -- alphabetic byte: a run token is accumulated
        have htkb : is_tkn b = true := by simp [is_tkn, hb]
        have hq := takeWhile_stop is_tkn 32 (b :: p2) rest (by decide)
        have hlex : lex (b :: (p2 ++ 32 :: rest)) =
            (.token (strOfBytes ((b :: p2).takeWhile is_tkn)),
              (b :: p2).dropWhile is_tkn ++ 32 :: rest) := by
          rw [lex_alpha b hb]
          simp only [accu_token, ← List.cons_append, hq.1, hq.2]
        have hcur : (parser_new (b :: (p2 ++ 32 :: rest))).curr =
            .token (strOfBytes ((b :: p2).takeWhile is_tkn)) := by
          simp [parser_new, hlex]
        have hdlen : ((b :: p2).dropWhile is_tkn).length ≤ p2.length := by
          simp only [List.dropWhile_cons_of_pos htkb]
          exact (List.dropWhile_sublist is_tkn).length_le
        have hdsafe : ∀ x ∈ (b :: p2).dropWhile is_tkn, path_safe x = true :=
          fun x hx => hsafe x ((List.dropWhile_sublist is_tkn).subset hx)
        simp only [path, hcur, token_to_string]
        rw [show (walk (parser_new (b :: (p2 ++ 32 :: rest)))).2 =
            parser_new ((b :: p2).dropWhile is_tkn ++ 32 :: rest) by
          simp [walk_parser_new, hlex]]
        rw [ih ((b :: p2).dropWhile is_tkn) (by omega) hdsafe rest _ g
          (by omega)]
        rw [String.append_assoc, ← strOfBytes_append,
          List.takeWhile_append_dropWhile]
      · -- digit byte: a single-digit token
        have hlex : lex (b :: (p2 ++ 32 :: rest)) =
            (.char (.digit (b - 48)), p2 ++ 32 :: rest) := by
          rw [lex_digit_eq b hb]
        have hcur : (parser_new (b :: (p2 ++ 32 :: rest))).curr =
            .char (.digit (b - 48)) := by
          simp [parser_new, hlex]
        simp only [path, hcur, token_to_string]
        rw [show (walk (parser_new (b :: (p2 ++ 32 :: rest)))).2 =
            parser_new (p2 ++ 32 :: rest) by
          simp [walk_parser_new, hlex]]
        rw [ih p2 (by omega) hsp2 rest _ g (by omega), digit_render b hb,
          String.append_assoc, ← strOfBytes_cons]
      · -- mark byte other than the backquote
        obtain ⟨c, hlexc, hrender⟩ := lex_mark b hb hb96 (p2 ++ 32 :: rest)
        have hlex : lex (b :: (p2 ++ 32 :: rest)) =
            (.char c, p2 ++ 32 :: rest) := hlexc
        have hcur : (parser_new (b :: (p2 ++ 32 :: rest))).curr = .char c := by
          simp [parser_new, hlex]
        simp only [path, hcur, token_to_string]
        rw [show (walk (parser_new (b :: (p2 ++ 32 :: rest)))).2 =
            parser_new (p2 ++ 32 :: rest) by
          simp [walk_parser_new, hlex]]
        rw [ih p2 (by omega) hsp2 rest _ g (by omega), hrender,
          String.append_assoc, ← strOfBytes_cons]
      · -- slash byte: a slash delimiter token
        subst hb
        have hlex : lex (47 :: (p2 ++ 32 :: rest)) =
            (.delimiter .slash, p2 ++ 32 :: rest) := rfl
        have hcur : (parser_new (47 :: (p2 ++ 32 :: rest))).curr =
            .delimiter .slash := by
          simp [parser_new, hlex]
        simp only [path, hcur, token_to_string]
        rw [show (walk (parser_new (47 :: (p2 ++ 32 :: rest)))).2 =
            parser_new (p2 ++ 32 :: rest) by
          simp [walk_parser_new, hlex]]
        rw [ih p2 (by omega) hsp2 rest _ g (by omega)]
        rw [show delimiter_to_string .slash = String.mk [Char.ofNat 47]
          from rfl, String.append_assoc, ← strOfBytes_cons]
      · -- colon byte: a colon delimiter token
        subst hb
        have hlex : lex (58 :: (p2 ++ 32 :: rest)) =
            (.delimiter .colon, p2 ++ 32 :: rest) := rfl
        have hcur : (parser_new (58 :: (p2 ++ 32 :: rest))).curr =
            .delimiter .colon := by
          simp [parser_new, hlex]
        simp only [path, hcur, token_to_string]
        rw [show (walk (parser_new (58 :: (p2 ++ 32 :: rest)))).2 =
            parser_new (p2 ++ 32 :: rest) by
          simp [walk_parser_new, hlex]]
        rw [ih p2 (by omega) hsp2 rest _ g (by omega)]
        rw [show delimiter_to_string .colon = String.mk [Char.ofNat 58]
          from rfl, String.append_assoc, ← strOfBytes_cons]

theorem str_nil_append (a : String) : "" ++ a = a := by
  rcases a with ⟨l⟩
  show String.mk [] ++ String.mk l = String.mk l
  rw [strmk_append]
  simp

theorem method_run_token (mb : List Nat) (hne : mb ≠ [])
    (halpha : ∀ b ∈ mb, is_ascii_alphabetic b = true) (tail : List Nat) :
    lex (mb ++ 32 :: tail) = (.token (strOfBytes mb), 32 :: tail) := by
  cases mb with
  | nil => exact absurd rfl hne
  | cons b mb2 =>
    have hb : is_ascii_alphabetic b = true := halpha b (by simp)
    have htk : ∀ x ∈ (b :: mb2), is_tkn x = true := fun x hx => by
      simp [is_tkn, halpha x hx]
    have h32 : ¬ is_tkn 32 = true := by decide
    simp only [List.cons_append]
    rw [lex_alpha b hb]
    simp only [accu_token]
    rw [← List.cons_append, List.takeWhile_append_of_pos htk,
      List.dropWhile_append_of_pos htk, List.takeWhile_cons_of_neg h32,
      List.dropWhile_cons_of_neg h32]
    simp

theorem rl_sim (mb : List Nat) (hne : mb ≠ [])
    (halpha : ∀ b ∈ mb, is_ascii_alphabetic b = true)
    (p : List Nat) (hp : ∀ b ∈ p, path_safe b = true) :
    request_line (parser_new
        (mb ++ 32 :: (p ++ 32 :: strBytes "HTTP/1.1\r\n"))) =
      POut.ok ⟨(if strOfBytes mb = "GET" then .GET
          else if strOfBytes mb = "POST" then .POST else .BAD),
        strOfBytes p, .HTTP1_1⟩ ⟨.eof, .eof, []⟩ := by
  have hlex1 : lex (mb ++ 32 :: (p ++ 32 :: strBytes "HTTP/1.1\r\n")) =
      (.token (strOfBytes mb), 32 :: (p ++ 32 :: strBytes "HTTP/1.1\r\n")) :=
    method_run_token mb hne halpha _
  have hcur0 : (parser_new
      (mb ++ 32 :: (p ++ 32 :: strBytes "HTTP/1.1\r\n"))).curr =
      .token (strOfBytes mb) := by
    simp [parser_new, hlex1]
  have hm : method (parser_new
      (mb ++ 32 :: (p ++ 32 :: strBytes "HTTP/1.1\r\n"))) =
      ((if strOfBytes mb = "GET" then .GET
        else if strOfBytes mb = "POST" then .POST else .BAD),
       parser_new (32 :: (p ++ 32 :: strBytes "HTTP/1.1\r\n"))) := by
    simp [method, expect_token, hcur0, walk_parser_new, hlex1]
  have hlex2 : lex (32 :: (p ++ 32 :: strBytes "HTTP/1.1\r\n")) =
      (.space, p ++ 32 :: strBytes "HTTP/1.1\r\n") := rfl
  have hcur1 : (parser_new (32 :: (p ++ 32 :: strBytes "HTTP/1.1\r\n"))).curr =
      .space := by
    simp [parser_new, hlex2]
  have hsp : expect .space
      (parser_new (32 :: (p ++ 32 :: strBytes "HTTP/1.1\r\n"))) =
      .ok .space (parser_new (p ++ 32 :: strBytes "HTTP/1.1\r\n")) := by
    simp [expect, hcur1, walk_parser_new, hlex2]
  have hsim := path_sim p.length p (Nat.le_refl _) hp
    (strBytes "HTTP/1.1\r\n") "" (p.length + 2) (Nat.le_refl _)
  have hns1 : path (p.length + 2)
      (parser_new (p ++ 32 :: strBytes "HTTP/1.1\r\n")) "" ≠ POut.stuck := by
    rw [hsim]
    simp
  have hns2 : path
      (psize (parser_new (p ++ 32 :: strBytes "HTTP/1.1\r\n")) + 1)
      (parser_new (p ++ 32 :: strBytes "HTTP/1.1\r\n")) "" ≠ POut.stuck :=
    path_not_stuck _ _ _ (Nat.lt_succ_self _)
  have hpath : pathRun (parser_new (p ++ 32 :: strBytes "HTTP/1.1\r\n")) "" =
      POut.ok (strOfBytes p) (parser_new (strBytes "HTTP/1.1\r\n")) := by
    rw [pathRun, path_fuel_eq _ _ hns2 hns1, hsim, str_nil_append]
  have hhttp : http_1_1 (parser_new (strBytes "HTTP/1.1\r\n")) =
      .ok .HTTP1_1 ⟨.crlf, .eof, []⟩ := by decide
  have hcrlf : expect .crlf (⟨.crlf, .eof, []⟩ : ParserState) =
      .ok .crlf ⟨.eof, .eof, []⟩ := by decide
  simp only [request_line, hm, hsp, hpath, hhttp, hcrlf]

theorem header_loop_ok_crlf (fuel : Nat) :
    ∀ (s : ParserState) (hs v : List (String × String)) (s2 : ParserState),
      header_loop fuel s hs = POut.ok v s2 → s2.curr = .crlf := by
  induction fuel with
  | zero => intro s hs v s2 h; simp [header_loop] at h
  | succ f ih =>
    intro s hs v s2 h
    simp only [header_loop] at h
    by_cases hc : curr_is .crlf s
    · rw [if_pos hc] at h
      cases h
      simpa [curr_is] using hc
    · rw [if_neg hc] at h
      cases hexp : expect_token s with
      | err msg s1 => simp [hexp] at h
      | ok name s1 =>
        simp only [hexp] at h
        cases hcol : expect (.delimiter .colon) s1 with
        | err msg sB => simp [hcol] at h
        | ok t sB =>
          simp only [hcol] at h
          cases hval : headerValRun (opt_space sB) "" with
          | ok v2 sC =>
            simp only [hval] at h
            cases hcr : expect .crlf sC with
            | err msg sD => simp [hcr] at h
            | ok t2 sD =>
              simp only [hcr] at h
              exact ih _ _ _ _ h
          | err m2 sC => simp [hval] at h
          | diverge => simp [hval] at h
          | stuck => simp [hval] at h

theorem headers_ok_crlf (s : ParserState) (e : HttpEntity) (s2 : ParserState)
    (h : headers s = POut.ok e s2) : s2.curr = .crlf := by
  simp only [headers] at h
  cases hrl : request_line s with
  | ok rl s1 =>
    simp only [hrl] at h
    cases hloop : header_loop (psize s1 + 1) s1 [] with
    | ok hs sB =>
      simp only [hloop] at h
      cases h
      exact header_loop_ok_crlf _ _ _ _ _ hloop
    | err m sB => simp [hloop] at h
    | diverge => simp [hloop] at h
    | stuck => simp [hloop] at h
  | err m s1 => simp [hrl] at h
  | diverge => simp [hrl] at h
  | stuck => simp [hrl] at h

theorem headerValRun_bad (s : ParserState) (acc : String)
    (hcur : s.curr = .bad) : headerValRun s acc = POut.diverge := by
  simp only [headerValRun, header_value, hcur]
  rfl

theorem headerValRun_eof (s : ParserState) (acc : String)
    (hcur : s.curr = .eof) : headerValRun s acc = POut.diverge := by
  simp only [headerValRun, header_value, hcur]
  rfl

/-- Claim C2 (code_bug): for a lone alphanumeric byte the spec promises a
single mark/letter token, but the source's second `peek` observes the same
byte again, so run accumulation is always entered: byte 0x47 (G) followed
by a space yields the one-character run token `Token("G")`, and the
single-letter `Char(Alpha _)` branch is dead code. -/
theorem C2_theorem :
    lex [71, 32] = (.token "G", [32]) ∧
    ((TokenKind.token "G") == TokenKind.char (.alpha 'G')) = false := by
  decide

/-- Claim C3 (corrected): when CR is followed by a non-LF byte, the call
emits a lone CR token but consumes TWO bytes (the CR and the following
byte), because `just(CR)` performs another `eat`; the following byte is
lost, not left for the next call.  A CR at the end of input consumes one
byte; CR followed by LF consumes exactly the two bytes and emits CRLF. -/
theorem C3_theorem :
    (∀ (b : Nat) (rest : List Nat), b ≠ 10 →
        lex (13 :: b :: rest) = (.cr, rest)) ∧
    (∀ rest : List Nat, lex (13 :: 10 :: rest) = (.crlf, rest)) ∧
    lex [13] = (.cr, []) := by
  refine ⟨?_, fun rest => rfl, rfl⟩
  intro b rest hb
  simp [lex, hb]

/-- Witness for C3 at byte 0x58 (X) after the CR. -/
theorem C3_witness : lex [13, 88, 65] = (.cr, [65]) :=
  C3_theorem.1 88 [65] (by decide)

/-- Counterexample for C3: on input CR X the tokenizer leaves no remaining
bytes (X was consumed together with the CR), not the one-byte remainder
the claim promises. -/
theorem C3_counterexample :
    lex [13, 88] = (.cr, []) ∧ (([] : List Nat) == [88]) = false := by
  decide

/-- Claim C7 (corrected): a run token is the maximal prefix of letters and
mark characters only; decimal digits are NOT part of runs (`is_tkn` is
alphabetic-or-mark), so a digit adjacent to letters terminates the run and
is emitted as its own single-digit token. -/
theorem C7_theorem :
    (∀ (b : Nat) (rest : List Nat), is_ascii_alphabetic b = true →
        lex (b :: rest) = (.token (strOfBytes ((b :: rest).takeWhile is_tkn)),
          (b :: rest).dropWhile is_tkn)) ∧
    (∀ b : Nat, is_ascii_digit b = true → is_tkn b = false) ∧
    (∀ (b : Nat) (rest : List Nat), is_ascii_digit b = true →
        lex (b :: rest) = (.char (.digit (b - 48)), rest)) := by
  refine ⟨?_, ?_, fun b rest hb => lex_digit_eq b hb rest⟩
  · intro b rest hb
    rw [lex_alpha b hb]
    rfl
  · intro b hb
    have hr : 48 ≤ b ∧ b ≤ 57 := by simpa [is_ascii_digit] using hb
    simp [is_tkn, is_ascii_alphabetic, is_tchar]
    omega

/-- Witness for C7: tokenizing HTTP2 stops the run at the digit. -/
theorem C7_witness :
    lex [72, 84, 84, 80, 50] = (.token "HTTP", [50]) ∧ is_tkn 49 = false ∧
    lex [49, 120] = (.char (.digit 1), [120]) := by
  refine ⟨?_, C7_theorem.2.1 49 (by decide),
    (C7_theorem.2.2 49 [120] (by decide)).trans (by decide)⟩
  exact (C7_theorem.1 72 [84, 84, 80, 50] (by decide)).trans (by decide)

/-- Counterexample for C7: the maximal alphanumeric sequence ab1 is NOT one
run token; the run stops before the digit. -/
theorem C7_counterexample :
    lex [97, 98, 49] = (.token "ab", [49]) ∧
    (("ab" : String) == "ab1") = false := by
  decide

/-- Claim C4 (corrected): when the path rule walks into a double-quote
token it hits `todo!()`, i.e. the parse aborts by panic; it is not
silently skipped, but no structural error value is returned to the caller
either. -/
theorem C4_theorem (s : ParserState) (acc : String) (h : s.curr = .dQuote) :
    pathRun s acc = POut.diverge := by
  simp only [pathRun, path, h]

/-- Witness for C4 at a concrete state whose current token is the quote. -/
theorem C4_witness : pathRun ⟨.dQuote, .eof, []⟩ "" = POut.diverge :=
  C4_theorem ⟨.dQuote, .eof, []⟩ "" rfl

/-- Counterexample for C4: on `GET " HTTP/1.1` the whole request-line parse
diverges (panics); it does not produce an error result, so no error
message exists. -/
theorem C4_counterexample :
    request_line (parser_new (strBytes "GET \x22 HTTP/1.1\r\n")) =
      POut.diverge ∧
    (POut.getErr? (POut.diverge : POut RequestLine)).isNone = true := by
  exact ⟨by decide, rfl⟩

/-- Claim C5 (corrected): the header loop's terminating guard `curr_is` is a
non-consuming equality check, so the blank-line CRLF is NOT consumed: for
every input whose header block parses successfully, the final parser state
still has that CRLF as the current token.  The concrete zero-header input
illustrates this. -/
theorem C5_theorem :
    (∀ (s : ParserState) (e : HttpEntity) (s2 : ParserState),
        headers s = POut.ok e s2 → s2.curr = .crlf) ∧
    headers (parser_new (strBytes "GET / HTTP/1.1\r\n\r\n")) =
      POut.ok ⟨.HTTP1_1, .GET, "/", []⟩ ⟨.crlf, .eof, []⟩ :=
  ⟨headers_ok_crlf, by decide⟩

/-- Witness for C5: the zero-header request ends with the blank-line CRLF
still current. -/
theorem C5_witness : (⟨.crlf, .eof, []⟩ : ParserState).curr = .crlf :=
  C5_theorem.1 (parser_new (strBytes "GET / HTTP/1.1\r\n\r\n"))
    ⟨.HTTP1_1, .GET, "/", []⟩ ⟨.crlf, .eof, []⟩ (by decide)

/-- Counterexample for C5: after the header-block parse of the zero-header
request returns, the blank-line CRLF IS still the current token, contrary
to the claim that the parser has advanced past it. -/
theorem C5_counterexample :
    headers (parser_new (strBytes "GET / HTTP/1.1\r\n\r\n")) =
      POut.ok ⟨.HTTP1_1, .GET, "/", []⟩ ⟨.crlf, .eof, []⟩ ∧
    ((⟨.crlf, .eof, []⟩ : ParserState).curr == TokenKind.crlf) = true := by
  exact ⟨by decide, rfl⟩

/-- Claim C10 (confirmed): inside a header value, a bad token or
end-of-input makes the value loop render the walked token with
`to_string`, whose `Bad | Eof` arm is `unreachable!()`: the parse aborts by
panic (modelled `diverge`) and never returns a value; it does not produce
a structural error.  Both loop-level statements and two end-to-end inputs
(a 0x01 byte inside a value; input ending inside a value) are included. -/
theorem C10_theorem :
    (∀ (s : ParserState) (acc : String), s.curr = .bad →
        headerValRun s acc = POut.diverge) ∧
    (∀ (s : ParserState) (acc : String), s.curr = .eof →
        headerValRun s acc = POut.diverge) ∧
    token_to_string .bad = none ∧ token_to_string .eof = none ∧
    headers (parser_new (strBytes "GET / HTTP/1.1\r\nA: b\x01c\r\n\r\n")) =
      POut.diverge ∧
    headers (parser_new (strBytes "GET / HTTP/1.1\r\nA: b")) = POut.diverge :=
  ⟨headerValRun_bad, headerValRun_eof, rfl, rfl, by decide, by decide⟩

/-- Witness for C10 at concrete states whose current token is bad resp.
end-of-input. -/
theorem C10_witness :
    headerValRun ⟨.bad, .eof, []⟩ "" = POut.diverge ∧
    headerValRun ⟨.eof, .eof, []⟩ "" = POut.diverge :=
  ⟨C10_theorem.1 ⟨.bad, .eof, []⟩ "" rfl, C10_theorem.2.1 ⟨.eof, .eof, []⟩ "" rfl⟩

/-- Claim C8 (confirmed): the method rule never returns an error: a run
token is mapped GET/POST/anything-else→BAD, failure to obtain a run token
is recovered to BAD without consuming anything, and on `FETCH / HTTP/1.1`
the path and version still parse successfully. -/
theorem C8_theorem :
    (∀ (s : ParserState) (str : String) (s2 : ParserState),
        expect_token s = PRes.ok str s2 →
        method s = ((if str = "GET" then HttpMethod.GET
          else if str = "POST" then HttpMethod.POST else HttpMethod.BAD),
          s2)) ∧
    (∀ (s s2 : ParserState) (msg : String),
        expect_token s = PRes.err msg s2 → method s = (HttpMethod.BAD, s2)) ∧
    POut.getOk? (request_line (parser_new (strBytes "FETCH / HTTP/1.1\r\n"))) =
      some ⟨.BAD, "/", .HTTP1_1⟩ := by
  refine ⟨?_, ?_, by decide⟩
  · intro s str s2 h
    simp [method, h]
  · intro s s2 msg h
    simp [method, h]

/-- Witness for C8: the GET mapping on a concrete state, and recovery to
BAD on a concrete state whose current token is not a run. -/
theorem C8_witness :
    method ⟨.token "GET", .space, [120]⟩ =
      (HttpMethod.GET, ⟨.space, .token "x", []⟩) ∧
    method ⟨.space, .eof, []⟩ = (HttpMethod.BAD, ⟨.space, .eof, []⟩) := by
  constructor
  · have h := C8_theorem.1 ⟨.token "GET", .space, [120]⟩ "GET"
      ⟨.space, .token "x", []⟩ (by decide)
    simpa using h
  · exact C8_theorem.2.1 ⟨.space, .eof, []⟩ ⟨.space, .eof, []⟩
      "Was expected a Token" (by decide)

theorem expect_token_ok (s : ParserState) (a : String) (s2 : ParserState)
    (h : expect_token s = PRes.ok a s2) :
    s.curr = .token a ∧ s2 = (walk s).2 := by
  cases hc : s.curr with
  | token str =>
    simp only [expect_token, hc] at h
    cases h
    exact ⟨rfl, rfl⟩
  | char c => simp [expect_token, hc] at h
  | delimiter d => simp [expect_token, hc] at h
  | dQuote => simp [expect_token, hc] at h
  | cr => simp [expect_token, hc] at h
  | lf => simp [expect_token, hc] at h
  | crlf => simp [expect_token, hc] at h
  | space => simp [expect_token, hc] at h
  | bad => simp [expect_token, hc] at h
  | eof => simp [expect_token, hc] at h

theorem expect_ok (tk : TokenKind) (s : ParserState) (a : TokenKind)
    (s2 : ParserState) (h : expect tk s = PRes.ok a s2) :
    s.curr = tk ∧ s2 = (walk s).2 := by
  by_cases hc : s.curr = tk
  · simp only [expect, if_pos hc] at h
    cases h
    exact ⟨hc, rfl⟩
  · simp [expect, if_neg hc] at h

/-- Claim C9 (confirmed): the version rule succeeds (producing HTTP/1.1,
the only representable version) exactly when the next five tokens are the
run "HTTP", a slash delimiter, digit 1, the dot mark and digit 1; any
deviation is an error, and `GET /x HTTP/2.0` fails at the first digit
check with the expected-vs-found message. -/
theorem C9_theorem :
    (∀ s : ParserState,
        (∃ s2, http_1_1 s = PRes.ok .HTTP1_1 s2) ↔
          (s.curr = .token "HTTP" ∧ s.next = .delimiter .slash ∧
            (lex s.bytes).1 = .char (.digit 1) ∧
            (lex (lex s.bytes).2).1 = .char .dot ∧
            (lex (lex (lex s.bytes).2).2).1 = .char (.digit 1))) ∧
    (∀ (s : ParserState) (v : HttpVsn) (s2 : ParserState),
        http_1_1 s = PRes.ok v s2 → v = .HTTP1_1) ∧
    POut.getErr? (request_line (parser_new (strBytes "GET /x HTTP/2.0\r\n"))) =
      some "Expected Char(Digit(1)), found Char(Digit(2))" := by
  refine ⟨?_, fun s v s2 _ => by cases v; rfl, by decide⟩
  intro s
  constructor
  · rintro ⟨sF, h⟩
    simp only [http_1_1] at h
    cases hexp : expect_token s with
    | err msg s1 => simp [hexp] at h
    | ok http s1 =>
      simp only [hexp] at h
      by_cases hstr : http = "HTTP"
      · subst hstr
        rw [if_neg (not_not_intro rfl)] at h
        cases hcol : expect (.delimiter .slash) s1 with
        | err m sB => simp [hcol] at h
        | ok t sB =>
          simp only [hcol] at h
          cases hd1 : expect (.char (.digit 1)) sB with
          | err m sC => simp [hd1] at h
          | ok t1 sC =>
            simp only [hd1] at h
            cases hdot : expect (.char .dot) sC with
            | err m sD => simp [hdot] at h
            | ok t2 sD =>
              simp only [hdot] at h
              cases hd2 : expect (.char (.digit 1)) sD with
              | err m sE => simp [hd2] at h
              | ok t3 sE =>
                obtain ⟨hc1, hs1⟩ := expect_token_ok s "HTTP" s1 hexp
                subst hs1
                obtain ⟨hc2, hs2⟩ := expect_ok _ _ _ _ hcol
                subst hs2
                obtain ⟨hc3, hs3⟩ := expect_ok _ _ _ _ hd1
                subst hs3
                obtain ⟨hc4, hs4⟩ := expect_ok _ _ _ _ hdot
                subst hs4
                obtain ⟨hc5, _⟩ := expect_ok _ _ _ _ hd2
                exact ⟨hc1, hc2, hc3, hc4, hc5⟩
      · simp [hstr] at h
  · rintro ⟨h1, h2, h3, h4, h5⟩
    refine ⟨⟨(lex (lex (lex (lex s.bytes).2).2).2).1,
      (lex (lex (lex (lex (lex s.bytes).2).2).2).2).1,
      (lex (lex (lex (lex (lex s.bytes).2).2).2).2).2⟩, ?_⟩
    simp [http_1_1, expect_token, expect, walk, h1, h2, h3, h4, h5]

/-- Witness for C9: the five-token stream over the bytes of
`HTTP/1.1\r\n` satisfies the right-hand side, so the version rule
succeeds there. -/
theorem C9_witness :
    ∃ s2, http_1_1 (parser_new (strBytes "HTTP/1.1\r\n")) =
      PRes.ok .HTTP1_1 s2 :=
  ((C9_theorem.1 (parser_new (strBytes "HTTP/1.1\r\n"))).mpr (by decide))

/-- Claim C6 (corrected): with two consecutive spaces between method and
path, request-line parsing does NOT succeed with a space-prefixed path:
the path rule terminates immediately at the second space with an empty
path, and the version rule then fails ("Was expected a Token") because the
path bytes are still unread; this holds for every continuation of the
input after `GET  /`. -/
theorem C6_theorem (rest : List Nat) :
    POut.getErr? (request_line (parser_new (strBytes "GET  /" ++ rest))) =
      some "Was expected a Token" := by
  have h0 : parser_new (strBytes "GET  /" ++ rest) =
      ⟨.token "GET", .space, 32 :: 47 :: rest⟩ := rfl
  have hm : method (⟨.token "GET", .space, 32 :: 47 :: rest⟩ : ParserState) =
      (.GET, ⟨.space, .space, 47 :: rest⟩) := rfl
  have hsp : expect .space (⟨.space, .space, 47 :: rest⟩ : ParserState) =
      .ok .space ⟨.space, .delimiter .slash, rest⟩ := rfl
  have hpath : pathRun (⟨.space, .delimiter .slash, rest⟩ : ParserState) "" =
      POut.ok "" ⟨.delimiter .slash, (lex rest).1, (lex rest).2⟩ := by
    simp only [pathRun, path]
    rfl
  have hhttp : http_1_1
      (⟨.delimiter .slash, (lex rest).1, (lex rest).2⟩ : ParserState) =
      .err "Was expected a Token"
        ⟨.delimiter .slash, (lex rest).1, (lex rest).2⟩ := rfl
  rw [h0]
  simp only [request_line, hm, hsp, hpath, hhttp, POut.getErr?]

/-- Counterexample for C6: on the exact input `GET  /x HTTP/1.1` the parse
fails (no request line is produced), contrary to the claim that it
succeeds with a path starting with a literal space. -/
theorem C6_counterexample :
    (POut.getOk? (request_line
        (parser_new (strBytes "GET  /x HTTP/1.1\r\n")))).isNone = true ∧
    POut.getErr? (request_line
        (parser_new (strBytes "GET  /x HTTP/1.1\r\n"))) =
      some "Was expected a Token" := by
  decide

/-- Claim C1 (corrected): for METHOD in GET or POST and every PATH made of
path-safe bytes (letters, digits, marks except the backquote, slash,
colon), parsing the request line of `METHOD PATH HTTP/1.1` followed by
CRLF succeeds and returns the triple with PATH reproduced literally. -/
theorem C1_theorem (p : List Nat) (hp : ∀ b ∈ p, path_safe b = true) :
    request_line (parser_new
        (strBytes "GET " ++ p ++ strBytes " HTTP/1.1\r\n")) =
      POut.ok ⟨.GET, strOfBytes p, .HTTP1_1⟩ ⟨.eof, .eof, []⟩ ∧
    request_line (parser_new
        (strBytes "POST " ++ p ++ strBytes " HTTP/1.1\r\n")) =
      POut.ok ⟨.POST, strOfBytes p, .HTTP1_1⟩ ⟨.eof, .eof, []⟩ := by
  constructor
  · have h : request_line (parser_new
        (strBytes "GET " ++ p ++ strBytes " HTTP/1.1\r\n")) =
        POut.ok ⟨(if strOfBytes [71, 69, 84] = "GET" then HttpMethod.GET
          else if strOfBytes [71, 69, 84] = "POST" then HttpMethod.POST
          else HttpMethod.BAD), strOfBytes p, .HTTP1_1⟩ ⟨.eof, .eof, []⟩ :=
      rl_sim [71, 69, 84] (by decide) (by decide) p hp
    refine h.trans ?_
    rw [show (if strOfBytes [71, 69, 84] = "GET" then HttpMethod.GET
      else if strOfBytes [71, 69, 84] = "POST" then HttpMethod.POST
      else HttpMethod.BAD) = HttpMethod.GET from by decide]
  · have h : request_line (parser_new
        (strBytes "POST " ++ p ++ strBytes " HTTP/1.1\r\n")) =
        POut.ok ⟨(if strOfBytes [80, 79, 83, 84] = "GET" then HttpMethod.GET
          else if strOfBytes [80, 79, 83, 84] = "POST" then HttpMethod.POST
          else HttpMethod.BAD), strOfBytes p, .HTTP1_1⟩ ⟨.eof, .eof, []⟩ :=
      rl_sim [80, 79, 83, 84] (by decide) (by decide) p hp
    refine h.trans ?_
    rw [show (if strOfBytes [80, 79, 83, 84] = "GET" then HttpMethod.GET
      else if strOfBytes [80, 79, 83, 84] = "POST" then HttpMethod.POST
      else HttpMethod.BAD) = HttpMethod.POST from by decide]

/-- Witness for C1 at the spec's own example path `/items`. -/
theorem C1_witness :
    request_line (parser_new
        (strBytes "GET " ++ strBytes "/items" ++ strBytes " HTTP/1.1\r\n")) =
      POut.ok ⟨.GET, strOfBytes (strBytes "/items"), .HTTP1_1⟩
        ⟨.eof, .eof, []⟩ :=
  (C1_theorem (strBytes "/items") (by decide)).1

/-- Counterexample for C1: a path consisting of a lone backquote is
rendered back as a backslash (the source's `ToString` maps `Backquote` to
a backslash), so the returned path is not the literal text between the two
spaces. -/
theorem C1_counterexample :
    POut.getOk? (request_line
        (parser_new (strBytes "GET \x60 HTTP/1.1\r\n"))) =
      some ⟨.GET, "\x5c", .HTTP1_1⟩ ∧
    (("\x5c" : String) == "\x60") = false := by
  decide
